import Mathlib

set_option maxHeartbeats 1600000

/-!
Verification of the restaurant-assistant NLP order-parsing engine
(`backend/nlp.py`) against its natural-language specification.

Strings are modelled as `List Char`; Python's regular-expression
operations used by the source are embedded as executable functions on
character lists.  External dependencies of the engine (the rapidfuzz
similarity scorers, the optional word2number converter and the optional
transformer intent classifier) are modelled as oracle parameters bundled
in an `Ext` structure, since they are third-party libraries whose exact
numeric behaviour the spec explicitly leaves as an implementation choice.
-/

namespace RNLP

/-- Strings are modelled as lists of characters. -/
abbrev Str := List Char

/-- Coerce a Lean string literal to the `List Char` model. -/
def chars (s : String) : Str := s.data

/-- Python's `\w` word-character class (ASCII letters, digits, underscore). -/
def isWordChar (c : Char) : Bool := c.isAlphanum || c == '_'

/-- Python's `\s` / `str.strip` whitespace class. -/
def isSpaceChar (c : Char) : Bool :=
  c == ' ' || c == '\t' || c == '\n' || c == '\r' || c == '\x0b' || c == '\x0c'

/-- Python `str.lower()`. -/
def toLowerStr (t : Str) : Str := t.map Char.toLower

/-- Python `str.strip()`: drop leading and trailing whitespace. -/
def pyStrip (t : Str) : Str :=
  ((t.dropWhile isSpaceChar).reverse.dropWhile isSpaceChar).reverse

/-- Python `str.isspace()`: nonempty and all characters whitespace. -/
def pyIsSpace (t : Str) : Bool := !t.isEmpty && t.all isSpaceChar

/-- Does `p` occur literally at the front of `t`? -/
def takeEq (p t : Str) : Bool := t.take p.length == p

/-- Regex word boundary `\b` between an optional left and right character
(out-of-range counts as a non-word character). -/
def bdB (l r : Option Char) : Bool :=
  (l.elim false isWordChar) != (r.elim false isWordChar)

/-- One full left-to-right pass of `re.sub(rf'\b{key}\b', rep, ·)` for a
nonempty literal `key = k :: ks`, carrying the previous character of the
original text for the left word-boundary test.  The fuel argument (always
called with at least the length of the text, which strictly decreases) makes
the recursion structural so that it reduces inside the kernel. -/
def subRun (k : Char) (ks rep : Str) : Nat → Option Char → Str → Str
  | 0, _, t => t
  | _ + 1, _, [] => []
  | fuel + 1, prev, c :: rest =>
    if takeEq (k :: ks) (c :: rest) && bdB prev (some c) &&
        bdB (some (ks.getLastD k)) ((c :: rest).get? (ks.length + 1)) then
      rep ++ subRun k ks rep fuel (some (ks.getLastD k)) (rest.drop ks.length)
    else
      c :: subRun k ks rep fuel (some c) rest

/-- Python `re.sub(rf'\b{re.escape(key)}\b', rep, t)` for a literal `key`. -/
def wholeWordSub (key rep t : Str) : Str :=
  match key with
  | [] => t
  | k :: ks => subRun k ks rep t.length none t

/-- The `common_mistakes` spelling-correction table, in source order. -/
def commonMistakes : List (Str × Str) :=
  [(chars "piza", chars "pizza"), (chars "pizz", chars "pizza"),
   (chars "buger", chars "burger"), (chars "burgar", chars "burger"),
   (chars "cok", chars "coke"), (chars "coke", chars "coke"),
   (chars "coffe", chars "coffee"), (chars "cofffee", chars "coffee"),
   (chars "chiken", chars "chicken"), (chars "chikn", chars "chicken"),
   (chars "beryani", chars "biryani"), (chars "biriyani", chars "biryani")]

/-- The `food_aliases` synonym table, in source order. -/
def foodAliases : List (Str × Str) :=
  [(chars "coca cola", chars "coke"), (chars "coca-cola", chars "coke"),
   (chars "cola", chars "coke"), (chars "pepsi cola", chars "pepsi"),
   (chars "french fry", chars "french fries"), (chars "fries", chars "french fries"),
   (chars "chips", chars "french fries"), (chars "tea", chars "hot tea"),
   (chars "chai", chars "hot tea"), (chars "biryani", chars "chicken biryani"),
   (chars "margherita", chars "margherita pizza"),
   (chars "pepperoni", chars "pepperoni pizza"),
   (chars "wings", chars "chicken wings"),
   (chars "fried chicken", chars "chicken wings")]

/-- The substitution chain of `normalize_text` applied to already-lowercased
text: every misspelling correction in order, then every alias in order. -/
def normCore (t : Str) : Str :=
  (commonMistakes ++ foodAliases).foldl (fun acc p => wholeWordSub p.1 p.2 acc) t

/-- Embeds `RestaurantNLP.normalize_text`: lowercase, fix misspellings, fold aliases. -/
def normalize_text (t : Str) : Str := normCore (toLowerStr t)

/-- The apostrophe character, used inside several source phrases. -/
def apos : Char := Char.ofNat 39

/-- Oracles for the engine's external dependencies: the two rapidfuzz
similarity scorers (`fuzz.token_sort_ratio` and `fuzz.partial_ratio`), the
optional word2number converter (`none` models unavailability or an
exception), and the optional transformer zero-shot classifier returning its
top label with its confidence (`none` models unavailability or an error). -/
structure Ext where
  scorerA : Str → Str → ℚ
  scorerB : Str → Str → ℚ
  wordNum : Str → Option ℤ
  zeroShot : Str → Option (String × ℚ)

/-- The degenerate oracle set: both scorers identically `0`, word2number and
the transformer classifier unavailable. -/
def extZero : Ext :=
  { scorerA := fun _ _ => 0, scorerB := fun _ _ => 0,
    wordNum := fun _ => none, zeroShot := fun _ => none }

/-- The regex word boundary `\b` at absolute position `i` of `t`. -/
def bdAt (t : Str) (i : Nat) : Bool :=
  bdB (match i with | 0 => none | j + 1 => t.get? j) (t.get? i)

/-- Whole-word occurrence of the literal `ph` at position `i`
(`\b ph \b` anchored at `i`). -/
def occursWordAt (ph t : Str) (i : Nat) : Bool :=
  bdAt t i && takeEq ph (t.drop i) && bdAt t (i + ph.length)

/-- Python `re.search(rf'\b{ph}\b', t)` for a literal `ph`. -/
def containsWord (ph t : Str) : Bool :=
  (List.range (t.length + 1)).any (occursWordAt ph t)

/-- Python `re.search(rf'\b({p1}|{p2}|...)\b', t)` for literal alternatives. -/
def anyWord (phs : List Str) (t : Str) : Bool := phs.any (containsWord · t)

/-- Anchored `re.search(rf'^\b({p1}|...)\b', t)`. -/
def startAnyWord (phs : List Str) (t : Str) : Bool :=
  phs.any (occursWordAt · t 0)

/-- Plain substring containment (Python's `sub in t`). -/
def isSub (p t : Str) : Bool :=
  (List.range (t.length + 1)).any (fun i => takeEq p (t.drop i))

/-- The character range `t[lo:hi]` contains no newline (regex `.` does not
match `'\n'`, so a `.*` gap must satisfy this). -/
def noNL (t : Str) (lo hi : Nat) : Bool :=
  ((t.drop lo).take (hi - lo)).all (· != '\n')

/-- Python `re.search(rf'\b(A1|A2|..)\b.*\b(B1|..)\b', t)`: some whole-word `Ai`
followed (no closer than its end, across a newline-free gap) by some
whole-word `Bj`. -/
def seqWW (A B : List Str) (t : Str) : Bool :=
  (List.range (t.length + 1)).any fun i =>
    A.any fun a =>
      occursWordAt a t i &&
      (List.range (t.length + 1)).any fun j =>
        Nat.ble (i + a.length) j && noNL t (i + a.length) j &&
        B.any fun b => occursWordAt b t j

/-- Python `re.search(rf'\b({p1}.*{s1}|{p2}.*{s2}|..)\b', t)`: some alternative
`pre.*suf` with a word boundary only before `pre` and after `suf`. -/
def seqOpen (ps : List (Str × Str)) (t : Str) : Bool :=
  (List.range (t.length + 1)).any fun i =>
    ps.any fun p =>
      bdAt t i && takeEq p.1 (t.drop i) &&
      (List.range (t.length + 1)).any fun j =>
        Nat.ble (i + p.1.length) j && noNL t (i + p.1.length) j &&
        takeEq p.2 (t.drop j) && bdAt t (j + p.2.length)

/-- Length of the digit run starting at position `i`. -/
def digitRunLen (t : Str) (i : Nat) : Nat :=
  ((t.drop i).takeWhile Char.isDigit).length

/-- Decimal value of a digit string. -/
def decVal (d : Str) : Nat := d.foldl (fun n c => n * 10 + (c.toNat - 48)) 0

/-- Python `re.search(r'\b\d+\b', t)`: a maximal digit run flanked by boundaries. -/
def hasBoundedNum (t : Str) : Bool :=
  (List.range t.length).any fun i =>
    bdAt t i && ((t.get? i).elim false Char.isDigit) && bdAt t (i + digitRunLen t i)

/-- Python `re.search(r'\b\d+x\b', t)`. -/
def hasBoundedNumX (t : Str) : Bool :=
  (List.range t.length).any fun i =>
    bdAt t i && ((t.get? i).elim false Char.isDigit) &&
    (t.get? (i + digitRunLen t i) == some 'x') && bdAt t (i + digitRunLen t i + 1)

/-- The `quantity_words` table, in source (insertion) order; the value of
`half` is the rational one-half. -/
def quantityWords : List (Str × ℚ) :=
  [(chars "one", 1), (chars "two", 2), (chars "three", 3), (chars "four", 4),
   (chars "five", 5), (chars "six", 6), (chars "seven", 7), (chars "eight", 8),
   (chars "nine", 9), (chars "ten", 10), (chars "eleven", 11), (chars "twelve", 12),
   (chars "thirteen", 13), (chars "fourteen", 14), (chars "fifteen", 15),
   (chars "a", 1), (chars "an", 1), (chars "single", 1), (chars "double", 2),
   (chars "triple", 3), (chars "couple", 2), (chars "few", 3), (chars "several", 3),
   (chars "dozen", 12), (chars "half", mkRat 1 2)]

/-- Python's `int()` on a rational: truncation toward zero
(`Int.tdiv` is T-division, and the denominator is positive). -/
def pyInt (v : ℚ) : ℤ := Int.tdiv v.num (v.den : ℤ)

/-- Embeds `RestaurantNLP.contains_quantity`. -/
def contains_quantity (text : Str) : Bool :=
  let tl := toLowerStr text
  hasBoundedNum tl || hasBoundedNumX tl ||
    quantityWords.any (fun p => containsWord p.1 tl)

/-- Embeds `RestaurantNLP.extract_quantity_from_text`: `Nx` pattern, then bare
integer, then the word2number oracle, then the quantity-word table (whose
value passes through Python's `int()`, truncating `0.5` to `0`). -/
def extract_quantity_from_text (ext : Ext) (text : Str) : Option ℤ :=
  let tl := pyStrip (toLowerStr text)
  let p1 := (List.range tl.length).findSome? fun i =>
    if ((tl.get? i).elim false Char.isDigit) &&
        tl.get? (i + digitRunLen tl i) == some 'x' then
      some ((decVal ((tl.drop i).takeWhile Char.isDigit) : ℤ))
    else none
  let p2 := (List.range tl.length).findSome? fun i =>
    if bdAt tl i && ((tl.get? i).elim false Char.isDigit) &&
        bdAt tl (i + digitRunLen tl i) then
      some ((decVal ((tl.drop i).takeWhile Char.isDigit) : ℤ))
    else none
  let p4 := quantityWords.findSome? fun p =>
    if containsWord p.1 tl then some (pyInt p.2) else none
  p1 <|> p2 <|> ext.wordNum tl <|> p4

/-- Python `str.split()`: split on whitespace runs, discarding empty pieces
(fuel-structured recursion; fuel is at least the text length). -/
def splitWSF : Nat → Str → List Str
  | 0, _ => []
  | _ + 1, [] => []
  | fuel + 1, t =>
    let t1 := t.dropWhile isSpaceChar
    if t1.isEmpty then []
    else
      let w := t1.takeWhile (fun c => !isSpaceChar c)
      w :: splitWSF fuel (t1.drop w.length)

/-- Python `str.split()` on a string. -/
def splitWS (t : Str) : List Str := splitWSF t.length t

/-- Python `re.findall(r'\b\w+\b', t)`: the maximal word-character runs. -/
def wordRunsF : Nat → Str → List Str
  | 0, _ => []
  | _ + 1, [] => []
  | fuel + 1, t =>
    let t1 := t.dropWhile (fun c => !isWordChar c)
    if t1.isEmpty then []
    else
      let w := t1.takeWhile isWordChar
      w :: wordRunsF fuel (t1.drop w.length)

/-- Python `re.findall(r'\b\w+\b', t)` on a string. -/
def wordRuns (t : Str) : List Str := wordRunsF t.length t

/-- Python `re.split(r'\band\b|,|;', t)`: cut at each whole-word `and`, comma or
semicolon, left to right, keeping (possibly empty) segments. -/
def splitSepsF : Nat → Option Char → Str → Str → List Str
  | 0, _, acc, _ => [acc.reverse]
  | _ + 1, _, acc, [] => [acc.reverse]
  | fuel + 1, prev, acc, c :: rest =>
    if takeEq (chars "and") (c :: rest) && bdB prev (some c) &&
        bdB (some 'd') ((c :: rest).get? 3) then
      acc.reverse :: splitSepsF fuel (some 'd') [] (rest.drop 2)
    else if c == ',' || c == ';' then
      acc.reverse :: splitSepsF fuel (some c) [] rest
    else
      splitSepsF fuel (some c) (c :: acc) rest

/-- Python `re.split(r'\band\b|,|;', t)` on a string. -/
def splitSeps (t : Str) : List Str := splitSepsF t.length none [] t

/-- The phrase `don't want`. -/
def dontWant : Str := chars "don" ++ apos :: chars "t want"

/-- The phrase `what's available`. -/
def whatsAvailable : Str := chars "what" ++ apos :: chars "s available"

/-- The phrase `what's up`. -/
def whatsUp : Str := chars "what" ++ apos :: chars "s up"

/-- The phrase `i'll have`. -/
def iLlHave : Str := chars "i" ++ apos :: chars "ll have"

/-- Like `seqWW` but anchored after position `s` with a newline-free gap
before the first word (the body of a lookahead `.*\bA\b.*\bB\b` evaluated at
absolute position `s`). -/
def seqWWFromPos (s : Nat) (A B : List Str) (t : Str) : Bool :=
  (List.range (t.length + 1)).any fun i =>
    Nat.ble s i && noNL t s i &&
    A.any fun a =>
      occursWordAt a t i &&
      (List.range (t.length + 1)).any fun j =>
        Nat.ble (i + a.length) j && noNL t (i + a.length) j &&
        B.any fun b => occursWordAt b t j

/-- The `view_orders` pattern `\b(what did i|show my|view my|check my|my)\b.*\b(order|orders)\b`. -/
def viewP1 (t : Str) : Bool :=
  seqWW [chars "what did i", chars "show my", chars "view my", chars "check my",
         chars "my"] [chars "order", chars "orders"] t

/-- The `view_orders` pattern `\b(order history|past orders|previous orders|recent orders)\b`. -/
def viewP2 (t : Str) : Bool :=
  anyWord [chars "order history", chars "past orders", chars "previous orders",
           chars "recent orders"] t

/-- The `view_orders` pattern `\b(what.*order|which.*order)\b`. -/
def viewP3 (t : Str) : Bool :=
  seqOpen [(chars "what", chars "order"), (chars "which", chars "order")] t

/-- The `view_orders` pattern `^\b(my orders?|check orders?)\b` (the optional
`s?` makes four literal alternatives). -/
def viewP4 (t : Str) : Bool :=
  occursWordAt (chars "my orders") t 0 || occursWordAt (chars "my order") t 0 ||
  occursWordAt (chars "check orders") t 0 || occursWordAt (chars "check order") t 0

/-- Any `view_orders` pattern matches. -/
def viewAny (t : Str) : Bool := viewP1 t || viewP2 t || viewP3 t || viewP4 t

/-- The `cancel_order` pattern `\b(cancel|remove|delete|stop)\b.*\b(order|my order)\b`. -/
def cancelP1 (t : Str) : Bool :=
  seqWW [chars "cancel", chars "remove", chars "delete", chars "stop"]
        [chars "order", chars "my order"] t

/-- The `cancel_order` pattern `\b(don't want|changed my mind)\b.*\b(order)?\b`:
the suffix `.*\b(order)?\b` is satisfiable with an empty gap and empty
optional group at the word boundary that closes the first group, so the
pattern matches exactly when one of the two phrases occurs as whole words. -/
def cancelP2 (t : Str) : Bool := anyWord [dontWant, chars "changed my mind"] t

/-- The `cancel_order` pattern `^\b(cancel)\b(?!.*\border\b.*\bhistory\b)`:
`cancel` at the start, not followed (from position 6) by whole-word `order`
and then `history`. -/
def cancelP3 (t : Str) : Bool :=
  occursWordAt (chars "cancel") t 0 &&
    !(seqWWFromPos 6 [chars "order"] [chars "history"] t)

/-- Any `cancel_order` pattern matches. -/
def cancelAny (t : Str) : Bool := cancelP1 t || cancelP2 t || cancelP3 t

/-- The `show_menu` pattern `\b(menu|what do you have|what's available|show|list)\b`. -/
def showMenuP1 (t : Str) : Bool :=
  anyWord [chars "menu", chars "what do you have", whatsAvailable,
           chars "show", chars "list"] t

/-- The `show_menu` pattern `\b(see.*menu|menu.*please|display.*menu)\b`. -/
def showMenuP2 (t : Str) : Bool :=
  seqOpen [(chars "see", chars "menu"), (chars "menu", chars "please"),
           (chars "display", chars "menu")] t

/-- The `show_menu` pattern `\b(what.*available|available.*items)\b`. -/
def showMenuP3 (t : Str) : Bool :=
  seqOpen [(chars "what", chars "available"), (chars "available", chars "items")] t

/-- Any `show_menu` pattern matches. -/
def showMenuAny (t : Str) : Bool := showMenuP1 t || showMenuP2 t || showMenuP3 t

/-- The `greeting` pattern `^\b(hello|hi|hey|good morning|good afternoon|good evening)\b`. -/
def greetP1 (t : Str) : Bool :=
  startAnyWord [chars "hello", chars "hi", chars "hey", chars "good morning",
                chars "good afternoon", chars "good evening"] t

/-- The `greeting` pattern `^\b(how are you|what's up|greetings)\b`. -/
def greetP2 (t : Str) : Bool :=
  startAnyWord [chars "how are you", whatsUp, chars "greetings"] t

/-- Any `greeting` pattern matches. -/
def greetAny (t : Str) : Bool := greetP1 t || greetP2 t

/-- The `help` pattern `\b(help|how|what can|assist)\b`. -/
def helpP1 (t : Str) : Bool :=
  anyWord [chars "help", chars "how", chars "what can", chars "assist"] t

/-- The `help` pattern `\b(support|guide|instructions)\b`. -/
def helpP2 (t : Str) : Bool :=
  anyWord [chars "support", chars "guide", chars "instructions"] t

/-- Any `help` pattern matches. -/
def helpAny (t : Str) : Bool := helpP1 t || helpP2 t

/-- The `order_food` pattern `\b(want|need|order|get|give me|i'll have|can i have)\b`. -/
def orderP1 (t : Str) : Bool :=
  anyWord [chars "want", chars "need", chars "order", chars "get",
           chars "give me", iLlHave, chars "can i have"] t

/-- The `order_food` pattern `\b(pizza|burger|chicken|food|drink|eat)\b`. -/
def orderP2 (t : Str) : Bool :=
  anyWord [chars "pizza", chars "burger", chars "chicken", chars "food",
           chars "drink", chars "eat"] t

/-- The `order_food` pattern `\b\d+\b.*\b(pizza|burger|chicken|coke|tea|coffee)\b`. -/
def orderP3 (t : Str) : Bool :=
  (List.range t.length).any fun i =>
    bdAt t i && ((t.get? i).elim false Char.isDigit) &&
    bdAt t (i + digitRunLen t i) &&
    (List.range (t.length + 1)).any fun j =>
      Nat.ble (i + digitRunLen t i) j && noNL t (i + digitRunLen t i) j &&
      [chars "pizza", chars "burger", chars "chicken", chars "coke",
       chars "tea", chars "coffee"].any fun b => occursWordAt b t j

/-- Any `order_food` pattern matches. -/
def orderAny (t : Str) : Bool := orderP1 t || orderP2 t || orderP3 t

/-- Models `rapidfuzz.process.extract(q, cands, scorer, limit=1)`: the best-scoring
candidate (ties keep the earliest). -/
def extractBest (f : Str → Str → ℚ) (q : Str) : List Str → Option (Str × ℚ)
  | [] => none
  | c :: cs =>
    some (cs.foldl (fun b x => if f q x > b.2 then (x, f q x) else b) (c, f q c))

/-- Recover the original-cased menu item whose lowercase form is `ml`. -/
def findOrigLower (menu : List Str) (ml : Str) : Option Str :=
  menu.find? (fun mi => toLowerStr mi == ml)

/-- Scorer stage 1 of fuzzy matching (token-sort scorer): the best
candidate is kept only when it clears the 70-point threshold and maps back
to an original menu item; the pair `([], 0)` models Python's unset
`best_match = None, best_score = 0`. -/
def fuzzyB1 (ext : Ext) (qn : Str) (menu : List Str) : Str × ℚ :=
  match extractBest ext.scorerA qn (menu.map toLowerStr) with
  | some p =>
    if 70 ≤ p.2 then
      match findOrigLower menu p.1 with
      | some orig => (orig, p.2)
      | none => ([], 0)
    else ([], 0)
  | none => ([], 0)

/-- Scorer stage 2 of fuzzy matching (partial scorer), tried only when the
best score so far is below 85, and kept only when strictly better and above
the 70-point threshold. -/
def fuzzyB2 (ext : Ext) (qn : Str) (menu : List Str) (b1 : Str × ℚ) :
    Str × ℚ :=
  if b1.2 < 85 then
    match extractBest ext.scorerB qn (menu.map toLowerStr) with
    | some p =>
      if p.2 > b1.2 && 70 ≤ p.2 then
        match findOrigLower menu p.1 with
        | some orig => (orig, p.2)
        | none => b1
      else b1
    | none => b1
  else b1

/-- Embeds `RestaurantNLP.fuzzy_match_menu_item`: exact case-insensitive match of
the normalized query scores 100; otherwise scorer stage 1 then stage 2; an
unset or empty best match (Python falsiness) yields `none`. -/
def fuzzy_match_menu_item (ext : Ext) (query : Str) (menu : List Str) :
    Option (Str × ℚ) :=
  if query.isEmpty || menu.isEmpty then none
  else
    let qn := normalize_text query
    match menu.find? (fun mi => toLowerStr mi == qn) with
    | some mi => some (mi, 100)
    | none =>
      let b2 := fuzzyB2 ext qn menu (fuzzyB1 ext qn menu)
      if b2.1.isEmpty then none else some b2

/-- Embeds `RestaurantNLP.contains_food_items`: a menu name (or one of its words
longer than 3 characters) occurs in the normalized text, or some word of the
normalized text longer than 3 characters fuzzy-matches a menu item at ≥ 70. -/
def contains_food_items (ext : Ext) (text : Str) (menu : List Str) : Bool :=
  let tn := normalize_text text
  menu.any (fun mi =>
    let ml := toLowerStr mi
    isSub ml tn || (splitWS ml).any (fun w => decide (3 < w.length) && isSub w tn))
  || (wordRuns tn).any (fun w =>
      decide (3 < w.length) &&
      (match fuzzy_match_menu_item ext w menu with
       | some p => decide (70 ≤ p.2)
       | none => false))

/-- Embeds `RestaurantNLP.classify_intent`: empty guard, then the ordered rule
categories, then the implicit-food heuristics, then the `order_food`
patterns, then the optional zero-shot classifier accepted above 0.5. -/
def classify_intent (ext : Ext) (text : Str) (menu : List Str) : String :=
  let tl := pyStrip (toLowerStr text)
  if tl.isEmpty || pyIsSpace tl then "unknown"
  else if viewAny tl then "view_orders"
  else if cancelAny tl then "cancel_order"
  else if showMenuAny tl then "show_menu"
  else if greetAny tl then "greeting"
  else if helpAny tl then "help"
  else if contains_food_items ext text menu && contains_quantity text then
    "order_food"
  else if contains_food_items ext text menu then "order_food"
  else if orderAny tl then "order_food"
  else
    match ext.zeroShot text with
    | some lc => if lc.2 > mkRat 1 2 then lc.1 else "unknown"
    | none => "unknown"


/-- Length of the whitespace run starting at position `j`. -/
def spaceRunLen (t : Str) (j : Nat) : Nat :=
  ((t.drop j).takeWhile isSpaceChar).length

/-- Python `re.search(rf'\\b{a}\\s+{b}\\b', t)` for literals whose first characters
are not whitespace (so the `\\s+` must consume the entire whitespace run). -/
def indSpaceGen (a b t : Str) : Bool :=
  (List.range (t.length + 1)).any fun i =>
    bdAt t i && takeEq a (t.drop i) &&
    (let j := i + a.length
     let sp := spaceRunLen t j
     Nat.ble 1 sp && takeEq b (t.drop (j + sp)) && bdAt t (j + sp + b.length))

/-- The `specific_indicators` table. -/
def specificIndicators : List (Str × List Str) :=
  [(chars "pizza",
    [chars "chicken", chars "margherita", chars "pepperoni", chars "beef",
     chars "veggie", chars "vegetable", chars "cheese", chars "supreme"]),
   (chars "burger",
    [chars "chicken", chars "beef", chars "fish", chars "veggie",
     chars "vegetable", chars "cheese"])]

/-- The `generic_items` table (category, its specific menu variants). -/
def genericItems : List (Str × List Str) :=
  [(chars "pizza",
    [chars "Chicken Pizza", chars "Margherita Pizza", chars "Pepperoni Pizza"]),
   (chars "burger",
    [chars "Chicken Burger", chars "Beef Burger", chars "Fish Burger",
     chars "Veggie Burger"])]

/-- Lookup of `self.generic_items[g]` (defaulting to `[]`, never hit by the source). -/
def genericOptions (g : Str) : List Str :=
  ((genericItems.find? (fun p => p.1 == g)).map (fun p => p.2)).getD []

/-- Embeds `RestaurantNLP.has_specific_type`: some qualifier immediately before or
after the category word (across whitespace) in the lowercased raw text. -/
def has_specific_type (text gen : Str) : Bool :=
  let tl := toLowerStr text
  (((specificIndicators.find? (fun p => p.1 == gen)).map (fun p => p.2)).getD
      []).any fun ind => indSpaceGen ind gen tl || indSpaceGen gen ind tl

/-- Embeds `RestaurantNLP.check_generic_items`: first configured category whose
token occurs in the normalized text, with no specific qualifier and no
multi-word menu name appearing as a substring of the normalized text. -/
def check_generic_items (text : Str) (menu : List Str) : Option Str :=
  let tn := normalize_text text
  (genericItems.map (fun p => p.1)).find? fun g =>
    containsWord g tn && !has_specific_type text g &&
    !(menu.any fun mi =>
        isSub (toLowerStr mi) tn && decide (1 < (splitWS (toLowerStr mi)).length))

/-- The `defaultdict(int)` aggregation: add `v` to the entry of `k`, appending a
new entry (in insertion order) if absent. -/
def addQty : List (Str × ℤ) → Str → ℤ → List (Str × ℤ)
  | [], k, v => [(k, v)]
  | (k0, v0) :: rest, k, v =>
    if k0 == k then (k0, v0 + v) :: rest else (k0, v0) :: addQty rest k v

/-- Dictionary lookup in the aggregation list. -/
def alookup (a : List (Str × ℤ)) (k : Str) : Option ℤ :=
  (a.find? (fun p => p.1 == k)).map (fun p => p.2)

/-- Method 3 of clause resolution: fold the clause's words longer than 3
characters, keeping the strictly best-scoring fuzzy match. -/
def bestFold (ext : Ext) (menu : List Str) (ws : List Str) (b : Str × ℚ) :
    Str × ℚ :=
  ws.foldl (fun b w =>
    if decide (3 < w.length) then
      match fuzzy_match_menu_item ext w menu with
      | some p => if p.2 > b.2 then p else b
      | none => b
    else b) b

/-- Method 1 of clause resolution: the first menu name contained as a
substring of the clause, at score 100; the pair `([], 0)` models Python's
unset `matched_item = None, match_score = 0`. -/
def clauseA (menu : List Str) (part : Str) : Str × ℚ :=
  match menu.find? (fun mi => isSub (toLowerStr mi) part) with
  | some mi => (mi, 100)
  | none => ([], 0)

/-- Method 2 of clause resolution: when method 1 left the match unset (or
empty, Python falsiness), try the fuzzy matcher on the whole clause. -/
def clauseB (ext : Ext) (menu : List Str) (part : Str) : Str × ℚ :=
  if (clauseA menu part).1.isEmpty then
    match fuzzy_match_menu_item ext part menu with
    | some p => p
    | none => clauseA menu part
  else clauseA menu part

/-- Resolve one stripped clause to a (menu item, score) pair: method 1,
else method 2, else `bestFold` over the clause's long words. -/
def resolveClause (ext : Ext) (menu : List Str) (part : Str) : Str × ℚ :=
  if (clauseB ext menu part).1.isEmpty then
    bestFold ext menu (wordRuns part) (clauseB ext menu part)
  else clauseB ext menu part

/-- One clause of `extract_quantities_and_items_together`: strip, skip if
empty, extract a quantity (default 1), resolve the clause; aggregate on
success, record the stripped clause as unclear on failure. -/
def processPart (ext : Ext) (menu : List Str) (st : List (Str × ℤ) × List Str)
    (part0 : Str) : List (Str × ℤ) × List Str :=
  let part := pyStrip part0
  if part.isEmpty then st
  else
    let q := (extract_quantity_from_text ext part).getD 1
    let mC := resolveClause ext menu part
    if mC.1.isEmpty then (st.1, st.2 ++ [part])
    else (addQty st.1 mC.1 q, st.2)

/-- The sample four-item menu of the specification's examples. -/
def menuFour : List Str :=
  [chars "Chicken Pizza", chars "Margherita Pizza", chars "Pepperoni Pizza",
   chars "Coke"]

/-- The final-pass proximity regex
`(\\d+)\\s*{item}|{item}\\s*(\\d+)|(\\d+)x\\s*{item}`: leftmost match wins,
alternatives tried in order at each position, greedy digit/space runs with
backtracking tried longest first. -/
def proxQty (ml tn : Str) : Option ℤ :=
  (List.range (tn.length + 1)).findSome? fun p =>
    (let d := digitRunLen tn p
     if d = 0 then none
     else
       (List.range d).reverse.findSome? fun k1 =>
         let k := k1 + 1
         (List.range (spaceRunLen tn (p + k) + 1)).reverse.findSome? fun j =>
           if takeEq ml (tn.drop (p + k + j)) then
             some ((decVal ((tn.drop p).take k) : ℤ))
           else none) <|>
    (if takeEq ml (tn.drop p) then
       (List.range (spaceRunLen tn (p + ml.length) + 1)).reverse.findSome?
         fun j =>
           let d := digitRunLen tn (p + ml.length + j)
           if d = 0 then none
           else some ((decVal ((tn.drop (p + ml.length + j)).take d) : ℤ))
     else none) <|>
    (let d := digitRunLen tn p
     if d = 0 then none
     else if tn.get? (p + d) == some 'x' then
       (List.range (spaceRunLen tn (p + d + 1) + 1)).reverse.findSome? fun j =>
         if takeEq ml (tn.drop (p + d + 1 + j)) then
           some ((decVal ((tn.drop p).take d) : ℤ))
         else none
     else none)

/-- The final whole-text sweep: every menu name occurring in the normalized
text and not yet captured is appended with a proximity quantity (default 1). -/
def finalPass (menu : List Str) (tn : Str) (assoc : List (Str × ℤ)) :
    List (Str × ℤ) :=
  menu.foldl (fun a mi =>
    if isSub (toLowerStr mi) tn then
      if (a.find? (fun p => p.1 == mi)).isSome then a
      else a ++ [(mi, (proxQty (toLowerStr mi) tn).getD 1)]
    else a) assoc

/-- Embeds `RestaurantNLP.extract_quantities_and_items_together`. -/
def extract_quantities_and_items_together (ext : Ext) (text : Str)
    (menu : List Str) : List Str × List ℤ × List Str :=
  let tn := normalize_text text
  let st := (splitSeps tn).foldl (processPart ext menu) ([], [])
  let assoc := finalPass menu tn st.1
  let items := assoc.map (fun p => p.1)
  (items, items.map (fun it => (alookup assoc it).getD 0), st.2)

/-- The `ordering_phrases` list of `calculate_confidence`. -/
def orderingPhrases : List Str :=
  [chars "want", chars "need", chars "order", chars "get", chars "give me",
   iLlHave, chars "can i have"]

/-- Round to two decimal places (the engine only ever rounds multiples of
one tenth, where round-half-to-even and round-half-up agree). -/
def roundTwo (q : ℚ) : ℚ := ((⌊100 * q + mkRat 1 2⌋ : ℤ) : ℚ) / 100

/-- Embeds `calculate_confidence`. -/
def calculate_confidence (text : Str) (intent : String) (items : List Str)
    (quantities : List ℤ) : ℚ :=
  let c1 : ℚ := mkRat 1 2
  let c2 : ℚ :=
    if ["greeting", "help", "show_menu", "cancel_order", "view_orders"].contains
        intent then c1 + mkRat 3 10
    else if intent == "order_food" then
      if !items.isEmpty then c1 + mkRat 3 10 else c1 - mkRat 2 10
    else c1
  let c3 : ℚ :=
    if !items.isEmpty then
      c2 + mkRat 2 10 + (if quantities.length = items.length then mkRat 1 10 else 0)
    else c2
  let tl := toLowerStr text
  let c4 : ℚ :=
    if orderingPhrases.any (fun p => isSub p tl) then c3 + mkRat 1 10 else c3
  let c5 : ℚ :=
    if hasBoundedNum text && intent == "order_food" then c4 + mkRat 1 10 else c4
  roundTwo (max 0 (min 1 c5))

/-- The structured result of `parse_order` (field names as in the source
dictionary). -/
structure ParseResult where
  intent : String
  items : List Str
  quantities : List ℤ
  confidence : ℚ
  needs_clarification : Bool
  clarification_type : Option Str
  available_options : List Str
  unclear_items : List Str
deriving DecidableEq

/-- Embeds `parse_order`: empty guard, intent classification, then (for food
intent) the generic-category clarification path or full extraction with the
unclear-items clarification fallback. -/
def parse_order (ext : Ext) (text : Str) (menu : List Str) : ParseResult :=
  if (pyStrip text).isEmpty then
    { intent := "unknown", items := [], quantities := [], confidence := 0,
      needs_clarification := false, clarification_type := none,
      available_options := [], unclear_items := [] }
  else
    let t := pyStrip text
    let intent := classify_intent ext t menu
    if intent == "order_food" then
      match check_generic_items t menu with
      | some g =>
        let q : ℤ :=
          match extract_quantity_from_text ext t with
          | some v => if v == 0 then 1 else v
          | none => 1
        { intent := intent, items := [], quantities := [q],
          confidence := calculate_confidence t intent [] [q],
          needs_clarification := true, clarification_type := some g,
          available_options := genericOptions g, unclear_items := [] }
      | none =>
        let r := extract_quantities_and_items_together ext t menu
        if r.1.isEmpty && !r.2.2.isEmpty then
          { intent := intent, items := r.1, quantities := r.2.1,
            confidence := calculate_confidence t intent r.1 r.2.1,
            needs_clarification := true,
            clarification_type := some (chars "unclear_items"),
            available_options := r.2.2, unclear_items := r.2.2 }
        else
          { intent := intent, items := r.1, quantities := r.2.1,
            confidence := calculate_confidence t intent r.1 r.2.1,
            needs_clarification := false, clarification_type := none,
            available_options := [], unclear_items := r.2.2 }
    else
      { intent := intent, items := [], quantities := [],
        confidence := calculate_confidence t intent [] [],
        needs_clarification := false, clarification_type := none,
        available_options := [], unclear_items := [] }

end RNLP


namespace RNLP

/-- Claim C2 (counterexample): normalization is not a fixed point.  The
alias rule `tea -> hot tea` re-fires on its own output: `normalize("tea")`
is `"hot tea"` but `normalize(normalize("tea"))` is `"hot hot tea"`. -/
theorem claim2_counterexample :
    normalize_text (chars "tea") = chars "hot tea" ∧
    normalize_text (normalize_text (chars "tea")) = chars "hot hot tea" ∧
    normalize_text (normalize_text (chars "tea")) ≠ normalize_text (chars "tea") :=
  ⟨by decide, by decide, by decide⟩

/-- Claim C2 (amended): `normalize` is idempotent exactly on the inputs
whose normalized form is left unchanged by one further pass of the
substitution chain (it is already such a fixed point whenever no correction
or alias rule matches it, and it must also be fixed by lowercasing, which
the normalizer's output always is). -/
theorem claim2_amended (x : Str)
    (h1 : normCore (normalize_text x) = normalize_text x)
    (h2 : toLowerStr (normalize_text x) = normalize_text x) :
    normalize_text (normalize_text x) = normalize_text x := by
  show normCore (toLowerStr (normalize_text x)) = normalize_text x
  rw [h2, h1]

/-- Witness for the amended C2 at the concrete input `"hello"`. -/
theorem claim2_witness :
    normalize_text (normalize_text (chars "hello")) = normalize_text (chars "hello") :=
  claim2_amended (chars "hello") (by decide) (by decide)

/-- Claim C3 (counterexample): the quantity-word table does map `half` to
the rational one-half, but `extract_quantity_from_text` on the fragment
`"half"` (with the word2number oracle unavailable, and no digits or `Nx`
pattern present) returns `0`, Python's `int(0.5)` — not `0.5`. -/
theorem claim3_counterexample :
    extract_quantity_from_text extZero (chars "half") = some 0 ∧
    (quantityWords.find? (fun p => p.1 == chars "half")).map (fun p => p.2) =
      some (mkRat 1 2) ∧
    (mkRat 1 2 : ℚ) ≠ 0 :=
  ⟨by decide, by decide, by decide⟩

/-- Claim C3 (amended): when no digits, no `Nx` pattern and no
word-to-number conversion apply, the fragment `half` yields the table value
one-half truncated by Python's `int()`, i.e. the quantity `0`. -/
theorem claim3_amended (ext : Ext)
    (h : ext.wordNum (pyStrip (toLowerStr (chars "half"))) = none) :
    extract_quantity_from_text ext (chars "half") = some (pyInt (mkRat 1 2)) ∧
    pyInt (mkRat 1 2) = 0 := by
  constructor
  · simp only [extract_quantity_from_text]
    rw [h]
    decide
  · decide

/-- Witness for the amended C3 with the unavailable word2number oracle. -/
theorem claim3_witness :
    extract_quantity_from_text extZero (chars "half") = some (pyInt (mkRat 1 2)) ∧
    pyInt (mkRat 1 2) = 0 :=
  claim3_amended extZero (by decide)

/-- Claim C6: every empty or whitespace-only input short-circuits to the
fixed `unknown` result — intent `unknown`, confidence `0`, empty items and
quantities, no clarification — for every oracle set and menu, before any
intent rule is consulted. -/
theorem claim6_empty_input (ext : Ext) (text : Str) (menu : List Str)
    (h : pyStrip text = []) :
    parse_order ext text menu =
      { intent := "unknown", items := [], quantities := [], confidence := 0,
        needs_clarification := false, clarification_type := none,
        available_options := [], unclear_items := [] } := by
  simp [parse_order, h]

/-- Witness for C6 at the whitespace-only input `" "`. -/
theorem claim6_witness :
    parse_order extZero (chars " ") [] =
      { intent := "unknown", items := [], quantities := [], confidence := 0,
        needs_clarification := false, clarification_type := none,
        available_options := [], unclear_items := [] } :=
  claim6_empty_input extZero (chars " ") [] (by decide)

/-- Claim C4: parsing `"2 coke and 1 coke and 3 coke"` against the menu
`["Coke"]` aggregates the repeated mentions into a single entry with the
summed quantity, for every oracle set (no fuzzy call is reached on this
input). -/
theorem claim4_aggregation (ext : Ext) :
    (parse_order ext (chars "2 coke and 1 coke and 3 coke")
        [chars "Coke"]).items = [chars "Coke"] ∧
    (parse_order ext (chars "2 coke and 1 coke and 3 coke")
        [chars "Coke"]).quantities = [6] :=
  ⟨rfl, rfl⟩

end RNLP

namespace RNLP

/-- The fold inside `extractBest` either returns its seed unchanged or a
candidate from the list together with its own score. -/
theorem extractFold_spec (f : Str → Str → ℚ) (q : Str) :
    ∀ (cs : List Str) (b : Str × ℚ),
      (cs.foldl (fun b x => if f q x > b.2 then (x, f q x) else b) b) = b ∨
      ((cs.foldl (fun b x => if f q x > b.2 then (x, f q x) else b) b).1 ∈ cs ∧
       (cs.foldl (fun b x => if f q x > b.2 then (x, f q x) else b) b).2 =
         f q (cs.foldl (fun b x => if f q x > b.2 then (x, f q x) else b) b).1) := by
  intro cs
  induction cs with
  | nil => intro b; exact Or.inl rfl
  | cons x xs ih =>
    intro b
    simp only [List.foldl_cons]
    rcases ih (if f q x > b.2 then (x, f q x) else b) with h | h
    · rw [h]
      by_cases hx : f q x > b.2
      · rw [if_pos hx]
        exact Or.inr ⟨List.mem_cons_self _ _, rfl⟩
      · rw [if_neg hx]
        exact Or.inl rfl
    · exact Or.inr ⟨List.mem_cons_of_mem _ h.1, h.2⟩

/-- The function `extractBest` returns a candidate of the list with its oracle score. -/
theorem extractBest_spec (f : Str → Str → ℚ) (q : Str) (l : List Str)
    (p : Str × ℚ) (h : extractBest f q l = some p) :
    p.1 ∈ l ∧ p.2 = f q p.1 := by
  cases l with
  | nil => simp [extractBest] at h
  | cons c cs =>
    simp only [extractBest, Option.some.injEq] at h
    rcases extractFold_spec f q cs (c, f q c) with h2 | h2
    · rw [h2] at h
      rw [← h]
      exact ⟨List.mem_cons_self _ _, rfl⟩
    · rw [h] at h2
      exact ⟨List.mem_cons_of_mem _ h2.1, h2.2⟩

/-- Stage 1 of the fuzzy matcher yields either the unset pair or a menu
item scoring at least 70. -/
theorem fuzzyB1_inv (ext : Ext) (qn : Str) (menu : List Str) :
    (fuzzyB1 ext qn menu).1 = [] ∨
    ((fuzzyB1 ext qn menu).1 ∈ menu ∧ 70 ≤ (fuzzyB1 ext qn menu).2) := by
  unfold fuzzyB1
  split
  · rename_i pa hx
    split
    · rename_i hsc
      split
      · rename_i orig ho
        exact Or.inr ⟨List.mem_of_find?_eq_some ho, hsc⟩
      · exact Or.inl rfl
    · exact Or.inl rfl
  · exact Or.inl rfl

/-- Stage 2 of the fuzzy matcher preserves the stage-1 invariant. -/
theorem fuzzyB2_inv (ext : Ext) (qn : Str) (menu : List Str) (b1 : Str × ℚ)
    (h : b1.1 = [] ∨ (b1.1 ∈ menu ∧ 70 ≤ b1.2)) :
    (fuzzyB2 ext qn menu b1).1 = [] ∨
    ((fuzzyB2 ext qn menu b1).1 ∈ menu ∧ 70 ≤ (fuzzyB2 ext qn menu b1).2) := by
  unfold fuzzyB2
  split
  · split
    · rename_i pb hx
      split
      · rename_i hsc
        split
        · rename_i orig ho
          refine Or.inr ⟨List.mem_of_find?_eq_some ho, ?_⟩
          simp only [Bool.and_eq_true, decide_eq_true_eq] at hsc
          exact hsc.2
        · exact h
      · exact h
    · exact h
  · exact h

/-- Whatever `fuzzy_match_menu_item` returns names a menu item and scores at
least the 70-point acceptance floor. -/
theorem fuzzy_match_spec (ext : Ext) (q : Str) (menu : List Str) (p : Str × ℚ)
    (h : fuzzy_match_menu_item ext q menu = some p) :
    p.1 ∈ menu ∧ 70 ≤ p.2 := by
  simp only [fuzzy_match_menu_item] at h
  split at h
  · exact absurd h (by simp)
  · split at h
    · rename_i mi hfind
      simp only [Option.some.injEq] at h
      subst h
      exact ⟨List.mem_of_find?_eq_some hfind, by norm_num⟩
    · rename_i hfind
      split at h
      · exact absurd h (by simp)
      · rename_i hne
        simp only [Option.some.injEq] at h
        subst h
        rcases fuzzyB2_inv ext (normalize_text q) menu _
            (fuzzyB1_inv ext (normalize_text q) menu) with h0 | h1
        · exfalso
          apply hne
          rw [h0]
          rfl
        · exact h1

end RNLP

namespace RNLP

/-- Claim C7 (amended): fuzzy matching either returns `none` or a pair
naming a menu item with a score at least 70; and when the candidate is
nonempty and its normalized form equals some menu name case-insensitively,
it returns such a menu name with score 100.  (As stated in the claim the
exact-match clause also fails for the empty candidate, which the guard
rejects before the exact-match scan.) -/
theorem claim7_fuzzy_contract (ext : Ext) (q : Str) (menu : List Str) :
    (fuzzy_match_menu_item ext q menu = none ∨
      ∃ p : Str × ℚ, fuzzy_match_menu_item ext q menu = some p ∧
        p.1 ∈ menu ∧ 70 ≤ p.2) ∧
    (q ≠ [] → ∀ m ∈ menu, toLowerStr m = normalize_text q →
      ∃ m2 ∈ menu, toLowerStr m2 = normalize_text q ∧
        fuzzy_match_menu_item ext q menu = some (m2, 100)) := by
  constructor
  · cases hm : fuzzy_match_menu_item ext q menu with
    | none => exact Or.inl rfl
    | some p =>
      have hs := fuzzy_match_spec ext q menu p hm
      exact Or.inr ⟨p, rfl, hs.1, hs.2⟩
  · intro hq m hmem hlow
    have hqe : q.isEmpty = false := by
      cases q with
      | nil => exact absurd rfl hq
      | cons c cs => rfl
    have hme : menu.isEmpty = false := by
      cases menu with
      | nil => exact absurd hmem (List.not_mem_nil m)
      | cons a as => rfl
    cases hfind : menu.find? (fun mi => toLowerStr mi == normalize_text q) with
    | none =>
      exfalso
      exact absurd (by simpa using hlow)
        (by simpa using List.find?_eq_none.mp hfind m hmem)
    | some m2 =>
      have hm2mem : m2 ∈ menu := List.mem_of_find?_eq_some hfind
      have hm2low : toLowerStr m2 = normalize_text q := by
        simpa using List.find?_some hfind
      refine ⟨m2, hm2mem, hm2low, ?_⟩
      simp [fuzzy_match_menu_item, hqe, hme, hfind]

/-- Claim C7 (counterexample): for the empty candidate and a menu containing
the empty display string, the normalized candidate equals that menu name
case-insensitively, yet the matcher returns `none` (the emptiness guard
fires first), not that name with score 100. -/
theorem claim7_counterexample :
    fuzzy_match_menu_item extZero (chars "") [chars ""] = none ∧
    toLowerStr (chars "") = normalize_text (chars "") ∧
    (chars "") ∈ [chars ""] :=
  ⟨by decide, by decide, by decide⟩

/-- Witness for the amended C7: the candidate `"coke"` against the menu
`["Coke"]` matches exactly with score 100. -/
theorem claim7_witness :
    ∃ m2 ∈ [chars "Coke"], toLowerStr m2 = normalize_text (chars "coke") ∧
      fuzzy_match_menu_item extZero (chars "coke") [chars "Coke"] =
        some (m2, 100) :=
  (claim7_fuzzy_contract extZero (chars "coke") [chars "Coke"]).2
    (by decide) (chars "Coke") (by decide) (by decide)

/-- If every stage-1 score is below the threshold, stage 1 stays unset. -/
theorem fuzzyB1_low (ext : Ext) (qn : Str) (menu : List Str)
    (hA : ∀ m ∈ menu, ext.scorerA qn (toLowerStr m) < 70) :
    fuzzyB1 ext qn menu = ([], 0) := by
  unfold fuzzyB1
  split
  · rename_i pa hx
    have hspec := extractBest_spec ext.scorerA qn (menu.map toLowerStr) pa hx
    rcases List.mem_map.mp hspec.1 with ⟨m, hmmem, hml⟩
    have hlt : pa.2 < 70 := by
      rw [hspec.2, ← hml]
      exact hA m hmmem
    rw [if_neg (not_le.mpr hlt)]
  · rfl

/-- If every stage-2 score is below the threshold, stage 2 keeps the unset
pair. -/
theorem fuzzyB2_low (ext : Ext) (qn : Str) (menu : List Str)
    (hB : ∀ m ∈ menu, ext.scorerB qn (toLowerStr m) < 70) :
    fuzzyB2 ext qn menu ([], 0) = ([], 0) := by
  unfold fuzzyB2
  rw [if_pos (by norm_num)]
  split
  · rename_i pb hx
    have hspec := extractBest_spec ext.scorerB qn (menu.map toLowerStr) pb hx
    rcases List.mem_map.mp hspec.1 with ⟨m, hmmem, hml⟩
    have hlt : pb.2 < 70 := by
      rw [hspec.2, ← hml]
      exact hB m hmmem
    split
    · rename_i hsc
      simp only [Bool.and_eq_true, decide_eq_true_eq] at hsc
      exact absurd hsc.2 (not_le.mpr hlt)
    · rfl
  · rfl

/-- With no exact match and all scorer outputs below the threshold, fuzzy
matching returns `none`. -/
theorem fuzzy_match_low (ext : Ext) (q : Str) (menu : List Str)
    (hfind : menu.find? (fun mi => toLowerStr mi == normalize_text q) = none)
    (hA : ∀ m ∈ menu, ext.scorerA (normalize_text q) (toLowerStr m) < 70)
    (hB : ∀ m ∈ menu, ext.scorerB (normalize_text q) (toLowerStr m) < 70) :
    fuzzy_match_menu_item ext q menu = none := by
  simp only [fuzzy_match_menu_item, hfind, fuzzyB1_low ext (normalize_text q) menu hA,
    fuzzyB2_low ext (normalize_text q) menu hB]
  split <;> simp

end RNLP

namespace RNLP

/-- The fold `bestFold` preserves the unset-or-menu-item invariant of its seed. -/
theorem bestFold_inv (ext : Ext) (menu : List Str) :
    ∀ (ws : List Str) (b : Str × ℚ),
      (b.1 = [] ∨ b.1 ∈ menu) →
      ((bestFold ext menu ws b).1 = [] ∨ (bestFold ext menu ws b).1 ∈ menu) := by
  intro ws
  induction ws with
  | nil => intro b h; exact h
  | cons w ws ih =>
    intro b h
    refine ih _ ?_
    beta_reduce
    split
    · split
      · rename_i p hf
        split
        · exact Or.inr (fuzzy_match_spec ext w menu p hf).1
        · exact h
      · exact h
    · exact h

/-- Method 1 yields either the unset pair or a menu item. -/
theorem clauseA_inv (menu : List Str) (part : Str) :
    (clauseA menu part).1 = [] ∨ (clauseA menu part).1 ∈ menu := by
  unfold clauseA
  split
  · rename_i mi hfind
    exact Or.inr (List.mem_of_find?_eq_some hfind)
  · exact Or.inl rfl

/-- Method 2 preserves the invariant. -/
theorem clauseB_inv (ext : Ext) (menu : List Str) (part : Str) :
    (clauseB ext menu part).1 = [] ∨ (clauseB ext menu part).1 ∈ menu := by
  unfold clauseB
  split
  · cases hf : fuzzy_match_menu_item ext part menu with
    | none => exact clauseA_inv menu part
    | some p =>
      simp only [hf]
      exact Or.inr (fuzzy_match_spec ext part menu p hf).1
  · exact clauseA_inv menu part

/-- A resolved clause names either nothing or a menu item. -/
theorem resolveClause_inv (ext : Ext) (menu : List Str) (part : Str) :
    (resolveClause ext menu part).1 = [] ∨
    (resolveClause ext menu part).1 ∈ menu := by
  unfold resolveClause
  split
  · exact bestFold_inv ext menu (wordRuns part) _ (clauseB_inv ext menu part)
  · exact clauseB_inv ext menu part

/-- Aggregation preserves "every key is a menu item" when the added key is. -/
theorem addQty_forall (menu : List Str) :
    ∀ (a : List (Str × ℤ)) (k : Str) (v : ℤ),
      (∀ x ∈ a, x.1 ∈ menu) → k ∈ menu →
      ∀ x ∈ addQty a k v, x.1 ∈ menu := by
  intro a
  induction a with
  | nil =>
    intro k v _ hk x hx
    simp only [addQty, List.mem_singleton] at hx
    rw [hx]
    exact hk
  | cons kv rest ih =>
    intro k v h hk x hx
    simp only [addQty] at hx
    split at hx
    · rcases List.mem_cons.mp hx with h1 | h1
      · rw [h1]
        exact h kv (List.mem_cons_self _ _)
      · exact h x (List.mem_cons_of_mem _ h1)
    · rcases List.mem_cons.mp hx with h1 | h1
      · rw [h1]
        exact h kv (List.mem_cons_self _ _)
      · exact ih k v (fun y hy => h y (List.mem_cons_of_mem _ hy)) hk x h1

/-- Processing a clause preserves "every aggregated key is a menu item". -/
theorem processPart_subset (ext : Ext) (menu : List Str)
    (st : List (Str × ℤ) × List Str) (part : Str)
    (h : ∀ x ∈ st.1, x.1 ∈ menu) :
    ∀ x ∈ (processPart ext menu st part).1, x.1 ∈ menu := by
  simp only [processPart]
  split
  · exact h
  · split
    · exact h
    · rename_i hne
      refine addQty_forall menu st.1 _ _ h ?_
      rcases resolveClause_inv ext menu (pyStrip part) with h0 | h1
      · exfalso
        apply hne
        rw [h0]
        rfl
      · exact h1

/-- Folding the clause processor over the clause list preserves the key
invariant. -/
theorem partsFold_subset (ext : Ext) (menu : List Str) :
    ∀ (parts : List Str) (st : List (Str × ℤ) × List Str),
      (∀ x ∈ st.1, x.1 ∈ menu) →
      ∀ x ∈ (parts.foldl (processPart ext menu) st).1, x.1 ∈ menu := by
  intro parts
  induction parts with
  | nil => intro st h; exact h
  | cons p ps ih =>
    intro st h
    simp only [List.foldl_cons]
    exact ih _ (processPart_subset ext menu st p h)

/-- The final whole-text sweep only appends keys drawn from the traversed
name list. -/
theorem finalFold_subset (menu : List Str) (tn : Str) :
    ∀ (l : List Str) (a : List (Str × ℤ)),
      (∀ x ∈ a, x.1 ∈ menu) → (∀ mi ∈ l, mi ∈ menu) →
      ∀ x ∈ l.foldl (fun a mi =>
          if isSub (toLowerStr mi) tn then
            if (a.find? (fun p => p.1 == mi)).isSome then a
            else a ++ [(mi, (proxQty (toLowerStr mi) tn).getD 1)]
          else a) a, x.1 ∈ menu := by
  intro l
  induction l with
  | nil => intro a h _ x hx; exact h x hx
  | cons mi l ih =>
    intro a h hl x hx
    simp only [List.foldl_cons] at hx
    refine ih _ ?_ (fun m hm => hl m (List.mem_cons_of_mem _ hm)) x hx
    intro y hy
    split at hy
    · split at hy
      · exact h y hy
      · rcases List.mem_append.mp hy with hy1 | hy2
        · exact h y hy1
        · simp only [List.mem_singleton] at hy2
          rw [hy2]
          exact hl mi (List.mem_cons_self _ _)
    · exact h y hy

/-- Every extracted item is one of the supplied menu names. -/
theorem extract_subset (ext : Ext) (text : Str) (menu : List Str) :
    ∀ it ∈ (extract_quantities_and_items_together ext text menu).1, it ∈ menu := by
  intro it hit
  simp only [extract_quantities_and_items_together, finalPass] at hit
  rcases List.mem_map.mp hit with ⟨x, hx, rfl⟩
  exact finalFold_subset menu (normalize_text text) menu _
    (partsFold_subset ext menu (splitSeps (normalize_text text)) ([], [])
      (by intro y hy; simp at hy))
    (fun m hm => hm) x hx

end RNLP

namespace RNLP

section ExtractLenScope

attribute [local irreducible] normalize_text splitSeps processPart finalPass
  alookup proxQty

/-- The extractor always aligns quantities 1:1 with items. -/
theorem extract_len (ext : Ext) (text : Str) (menu : List Str) :
    (extract_quantities_and_items_together ext text menu).2.1.length =
    (extract_quantities_and_items_together ext text menu).1.length := by
  simp only [extract_quantities_and_items_together]
  exact List.length_map _ _

end ExtractLenScope

section ParsePathScope

attribute [local irreducible] normalize_text classify_intent check_generic_items
  extract_quantities_and_items_together calculate_confidence pyStrip
  extract_quantity_from_text

/-- Claim C10: every element of the result's `items` is one of the supplied
menu-name strings (original casing), for every utterance, menu and oracle
set. -/
theorem claim10_items_from_menu (ext : Ext) (text : Str) (menu : List Str) :
    ∀ it ∈ (parse_order ext text menu).items, it ∈ menu := by
  intro it hit
  simp only [parse_order] at hit
  split at hit
  · exact absurd hit (List.not_mem_nil it)
  · split at hit
    · split at hit
      · exact absurd hit (List.not_mem_nil it)
      · split at hit
        · exact extract_subset ext (pyStrip text) menu it hit
        · exact extract_subset ext (pyStrip text) menu it hit
    · exact absurd hit (List.not_mem_nil it)

/-- Claim C1 (amended): the items and quantities of a parse result have
equal length on every path except the generic-category clarification path,
where `items` is empty while `quantities` holds exactly the one extracted
quantity (and the result carries `needs_clarification` with the generic
category name). -/
theorem claim1_amended (ext : Ext) (text : Str) (menu : List Str) :
    (parse_order ext text menu).items.length =
      (parse_order ext text menu).quantities.length ∨
    ((parse_order ext text menu).items = [] ∧
     (parse_order ext text menu).quantities.length = 1 ∧
     (parse_order ext text menu).needs_clarification = true ∧
     ∃ g, (parse_order ext text menu).clarification_type = some g ∧
       (g = chars "pizza" ∨ g = chars "burger")) := by
  simp only [parse_order]
  split
  · exact Or.inl rfl
  · split
    · split
      · rename_i g hg
        refine Or.inr ⟨rfl, rfl, rfl, g, rfl, ?_⟩
        have hmem : g ∈ genericItems.map (fun p => p.1) := by
          simp only [check_generic_items] at hg
          exact List.mem_of_find?_eq_some hg
        simpa [genericItems] using hmem
      · split
        · exact Or.inl (extract_len ext (pyStrip text) menu).symm
        · exact Or.inl (extract_len ext (pyStrip text) menu).symm
    · exact Or.inl rfl

end ParsePathScope

/-- Witness for C10: parsing `"2 coke"` against `["Coke"]` produces the item
`"Coke"`, which the theorem places back in the menu. -/
theorem claim10_witness :
    (chars "Coke") ∈ (parse_order extZero (chars "2 coke") [chars "Coke"]).items ∧
    (chars "Coke") ∈ [chars "Coke"] :=
  ⟨by decide,
   claim10_items_from_menu extZero (chars "2 coke") [chars "Coke"]
     (chars "Coke") (by decide)⟩

/-- Claim C1 (counterexample): on the generic-category clarification path
the invariant fails — `"i want pizza"` against the sample menu yields no
items but one quantity. -/
theorem claim1_counterexample :
    (parse_order extZero (chars "i want pizza") menuFour).items.length = 0 ∧
    (parse_order extZero (chars "i want pizza") menuFour).quantities.length = 1 ∧
    (parse_order extZero (chars "i want pizza") menuFour).clarification_type =
      some (chars "pizza") :=
  ⟨by decide, by decide, by decide⟩

end RNLP

namespace RNLP

/-- The one-half constant of `roundTwo` as a division. -/
theorem mkRat_half : (mkRat 1 2 : ℚ) = 1 / 2 := by
  rw [Rat.mkRat_eq_div]
  norm_num

/-- Rounding to two decimals maps `[0,1]` into `[0,1]`. -/
theorem roundTwo_bounds (x : ℚ) (h0 : 0 ≤ x) (h1 : x ≤ 1) :
    0 ≤ roundTwo x ∧ roundTwo x ≤ 1 := by
  unfold roundTwo
  rw [mkRat_half]
  constructor
  · apply div_nonneg _ (by norm_num)
    have h : (0 : ℤ) ≤ ⌊100 * x + 1 / 2⌋ := Int.floor_nonneg.mpr (by linarith)
    exact_mod_cast h
  · rw [div_le_one (by norm_num)]
    have h : ⌊100 * x + 1 / 2⌋ < 101 := by
      rw [Int.floor_lt]
      push_cast
      linarith
    have h2 : ⌊100 * x + 1 / 2⌋ ≤ 100 := by omega
    exact_mod_cast h2

/-- Rounding to two decimals is idempotent. -/
theorem roundTwo_idem (x : ℚ) : roundTwo (roundTwo x) = roundTwo x := by
  unfold roundTwo
  rw [mkRat_half]
  congr 1
  have h100 : (100 : ℚ) * (((⌊100 * x + 1 / 2⌋ : ℤ) : ℚ) / 100) =
      ((⌊100 * x + 1 / 2⌋ : ℤ) : ℚ) := by
    field_simp
  have hh : ⌊(1 : ℚ) / 2⌋ = 0 := by
    rw [Int.floor_eq_zero_iff]
    constructor <;> norm_num
  rw [h100, Int.floor_int_add, hh]
  norm_num

/-- Rounding zero: `roundTwo 0 = 0`. -/
theorem roundTwo_zero : roundTwo 0 = 0 := by
  unfold roundTwo
  rw [mkRat_half]
  have hh : ⌊(100 : ℚ) * 0 + 1 / 2⌋ = 0 := by
    rw [Int.floor_eq_zero_iff]
    constructor <;> norm_num
  rw [hh]
  norm_num

/-- A clamped-and-rounded value is in `[0,1]` and is a fixed point of
clamping-and-rounding. -/
theorem roundTwoClamp_spec (c : ℚ) :
    0 ≤ roundTwo (max 0 (min 1 c)) ∧ roundTwo (max 0 (min 1 c)) ≤ 1 ∧
    roundTwo (max 0 (min 1 (roundTwo (max 0 (min 1 c))))) =
      roundTwo (max 0 (min 1 c)) := by
  obtain ⟨h0, h1⟩ := roundTwo_bounds (max 0 (min 1 c)) (le_max_left _ _)
    (max_le (by norm_num) (min_le_left _ _))
  refine ⟨h0, h1, ?_⟩
  rw [min_eq_right h1, max_eq_right h0, roundTwo_idem]

/-- The confidence scorer's output is in `[0,1]` and is a fixed point of
clamping-and-rounding to two decimals. -/
theorem calc_conf_spec (text : Str) (intent : String) (items : List Str)
    (qs : List ℤ) :
    0 ≤ calculate_confidence text intent items qs ∧
    calculate_confidence text intent items qs ≤ 1 ∧
    roundTwo (max 0 (min 1 (calculate_confidence text intent items qs))) =
      calculate_confidence text intent items qs :=
  roundTwoClamp_spec _

end RNLP

namespace RNLP

section ConfPathScope

attribute [local irreducible] normalize_text classify_intent check_generic_items
  extract_quantities_and_items_together calculate_confidence pyStrip
  extract_quantity_from_text roundTwo

/-- Claim C5: the confidence of every parse result lies in `[0,1]` and
equals its clamped value rounded to two decimal places (equivalently, is a
fixed point of clamp-then-round), for every utterance, menu and oracle set. -/
theorem claim5_confidence (ext : Ext) (text : Str) (menu : List Str) :
    0 ≤ (parse_order ext text menu).confidence ∧
    (parse_order ext text menu).confidence ≤ 1 ∧
    roundTwo (max 0 (min 1 (parse_order ext text menu).confidence)) =
      (parse_order ext text menu).confidence := by
  simp only [parse_order]
  split
  · refine ⟨le_refl 0, by norm_num, ?_⟩
    have hm : max (0 : ℚ) (min 1 0) = 0 := by norm_num
    show roundTwo (max 0 (min 1 0)) = 0
    rw [hm, roundTwo_zero]
  · split
    · split
      · exact calc_conf_spec _ _ _ _
      · split
        · exact calc_conf_spec _ _ _ _
        · exact calc_conf_spec _ _ _ _
    · exact calc_conf_spec _ _ _ _

end ConfPathScope

end RNLP

namespace RNLP

/-- A text containing the whole-word phrase `order history` is nonempty and
not whitespace-only. -/
theorem orderHistory_guards (t : Str)
    (h : containsWord (chars "order history") t = true) :
    t.isEmpty = false ∧ pyIsSpace t = false := by
  have hmem : 'o' ∈ t := by
    simp only [containsWord, List.any_eq_true] at h
    obtain ⟨i, hi, hocc⟩ := h
    simp only [occursWordAt, Bool.and_eq_true] at hocc
    obtain ⟨⟨hb1, hts⟩, hb2⟩ := hocc
    simp only [takeEq, beq_iff_eq] at hts
    have ho : 'o' ∈ (t.drop i).take (chars "order history").length := by
      rw [hts]
      decide
    exact List.drop_subset i t (List.take_subset _ _ ho)
  constructor
  · cases t with
    | nil => exact absurd hmem (List.not_mem_nil _)
    | cons c cs => rfl
  · have hall : t.all isSpaceChar = false := by
      cases hca : t.all isSpaceChar with
      | false => rfl
      | true =>
        have := List.all_eq_true.mp hca 'o' hmem
        exact absurd this (by decide)
    simp [pyIsSpace, hall]

section ClassifyPathScope

attribute [local irreducible] normalize_text contains_food_items
  contains_quantity pyStrip toLowerStr viewP1 viewP3 viewP4 cancelP1 cancelP2
  cancelP3 showMenuP1 showMenuP2 showMenuP3 greetP1 greetP2 helpP1 helpP2
  orderP1 orderP2 orderP3

/-- Claim C8: intent classification evaluates its rule categories in the
fixed priority order — ViewOrders, then CancelOrder, ShowMenu, Greeting,
Help — with the first matching category winning; and any text containing
the whole-word phrase `order history` is classified ViewOrders (its
pattern-2 fires first), never CancelOrder. -/
theorem claim8_priority (ext : Ext) (text : Str) (menu : List Str) :
    (((pyStrip (toLowerStr text)).isEmpty = false →
      pyIsSpace (pyStrip (toLowerStr text)) = false →
      (viewAny (pyStrip (toLowerStr text)) = true →
        classify_intent ext text menu = "view_orders") ∧
      (viewAny (pyStrip (toLowerStr text)) = false →
       cancelAny (pyStrip (toLowerStr text)) = true →
        classify_intent ext text menu = "cancel_order") ∧
      (viewAny (pyStrip (toLowerStr text)) = false →
       cancelAny (pyStrip (toLowerStr text)) = false →
       showMenuAny (pyStrip (toLowerStr text)) = true →
        classify_intent ext text menu = "show_menu") ∧
      (viewAny (pyStrip (toLowerStr text)) = false →
       cancelAny (pyStrip (toLowerStr text)) = false →
       showMenuAny (pyStrip (toLowerStr text)) = false →
       greetAny (pyStrip (toLowerStr text)) = true →
        classify_intent ext text menu = "greeting") ∧
      (viewAny (pyStrip (toLowerStr text)) = false →
       cancelAny (pyStrip (toLowerStr text)) = false →
       showMenuAny (pyStrip (toLowerStr text)) = false →
       greetAny (pyStrip (toLowerStr text)) = false →
       helpAny (pyStrip (toLowerStr text)) = true →
        classify_intent ext text menu = "help"))) ∧
    (containsWord (chars "order history") (pyStrip (toLowerStr text)) = true →
      classify_intent ext text menu = "view_orders" ∧
      classify_intent ext text menu ≠ "cancel_order") := by
  constructor
  · intro g1 g2
    refine ⟨?_, ?_, ?_, ?_, ?_⟩
    · intro hv
      simp [classify_intent, g1, g2, hv]
    · intro hv hc
      simp [classify_intent, g1, g2, hv, hc]
    · intro hv hc hm
      simp [classify_intent, g1, g2, hv, hc, hm]
    · intro hv hc hm hg
      simp [classify_intent, g1, g2, hv, hc, hm, hg]
    · intro hv hc hm hg hh
      simp [classify_intent, g1, g2, hv, hc, hm, hg, hh]
  · intro h
    obtain ⟨g1, g2⟩ := orderHistory_guards _ h
    have hp2 : viewP2 (pyStrip (toLowerStr text)) = true := by
      simp [viewP2, anyWord, h]
    have hv : viewAny (pyStrip (toLowerStr text)) = true := by
      simp [viewAny, hp2]
    have hcl : classify_intent ext text menu = "view_orders" := by
      simp [classify_intent, g1, g2, hv]
    refine ⟨hcl, ?_⟩
    rw [hcl]
    decide

end ClassifyPathScope

/-- Witness for C8: `"cancel my order history"` contains `order history` and
is classified ViewOrders. -/
theorem claim8_witness :
    classify_intent extZero (chars "cancel my order history") [] =
      "view_orders" ∧
    classify_intent extZero (chars "cancel my order history") [] ≠
      "cancel_order" :=
  (claim8_priority extZero (chars "cancel my order history") []).2 (by decide)

end RNLP

namespace RNLP

/-- When every long word of the clause has no fuzzy match, the word fold
keeps its seed. -/
theorem bestFold_none (ext : Ext) (menu : List Str) :
    ∀ (ws : List Str) (b : Str × ℚ),
      (∀ w ∈ ws, 3 < w.length → fuzzy_match_menu_item ext w menu = none) →
      bestFold ext menu ws b = b := by
  intro ws
  induction ws with
  | nil => intro b _; rfl
  | cons w ws ih =>
    intro b h
    have hstep : (if decide (3 < w.length) = true then
        match fuzzy_match_menu_item ext w menu with
        | some p => if p.2 > b.2 then p else b
        | none => b
      else b) = b := by
      by_cases hw : 3 < w.length
      · rw [if_pos (by simpa using hw), h w (List.mem_cons_self _ _) hw]
      · rw [if_neg (by simpa using hw)]
    calc bestFold ext menu (w :: ws) b
        = bestFold ext menu ws (if decide (3 < w.length) = true then
            match fuzzy_match_menu_item ext w menu with
            | some p => if p.2 > b.2 then p else b
            | none => b
          else b) := rfl
      _ = bestFold ext menu ws b := by rw [hstep]
      _ = b := ih b (fun w2 hw2 hl => h w2 (List.mem_cons_of_mem _ hw2) hl)

/-- With no substring match, method 1 stays unset. -/
theorem clauseA_none (menu : List Str) (part : Str)
    (hA : menu.find? (fun mi => isSub (toLowerStr mi) part) = none) :
    clauseA menu part = ([], 0) := by
  unfold clauseA
  rw [hA]

/-- With no substring match and no whole-clause fuzzy match, method 2 stays
unset. -/
theorem clauseB_none (ext : Ext) (menu : List Str) (part : Str)
    (hA : menu.find? (fun mi => isSub (toLowerStr mi) part) = none)
    (hB : fuzzy_match_menu_item ext part menu = none) :
    clauseB ext menu part = ([], 0) := by
  unfold clauseB
  rw [clauseA_none menu part hA, hB]
  rfl

/-- When none of the three methods resolves the clause, the resolution is
unset. -/
theorem resolveClause_none (ext : Ext) (menu : List Str) (part : Str)
    (hA : menu.find? (fun mi => isSub (toLowerStr mi) part) = none)
    (hB : fuzzy_match_menu_item ext part menu = none)
    (hC : ∀ w ∈ wordRuns part, 3 < w.length →
      fuzzy_match_menu_item ext w menu = none) :
    resolveClause ext menu part = ([], 0) := by
  unfold resolveClause
  rw [clauseB_none ext menu part hA hB,
    if_pos (show (([] : Str), (0 : ℚ)).1.isEmpty = true from rfl)]
  exact bestFold_none ext menu (wordRuns part) ([], 0) hC

end RNLP

namespace RNLP

section ProcessPathScope

attribute [local irreducible] normalize_text pyStrip resolveClause
  extract_quantity_from_text

/-- An unresolvable nonempty clause is recorded verbatim (stripped) in the
unclear list and leaves the aggregation untouched. -/
theorem processPart_noMatch (ext : Ext) (menu : List Str)
    (st : List (Str × ℤ) × List Str) (part0 : Str)
    (hne : (pyStrip part0).isEmpty = false)
    (hr : resolveClause ext menu (pyStrip part0) = ([], 0)) :
    processPart ext menu st part0 = (st.1, st.2 ++ [pyStrip part0]) := by
  simp only [processPart]
  rw [if_neg (by simp [hne]), hr,
    if_pos (show (([] : Str), (0 : ℚ)).1.isEmpty = true from rfl)]

end ProcessPathScope

/-- The clause separators of the C9 utterance. -/
theorem c9_split_eval :
    splitSeps (normalize_text (chars "2 chicken pizza and 1 unknown_item")) =
      [chars "2 chicken pizza ", chars " 1 unknown_item"] := by
  decide

/-- The word runs of the unresolvable C9 clause. -/
theorem c9_wordruns :
    wordRuns (chars "1 unknown_item") = [chars "1", chars "unknown_item"] := by
  decide

/-- Extraction on the C9 utterance, given that the two fuzzy queries the
clause walk performs both come back empty. -/
theorem c9_extract (ext : Ext)
    (h1 : fuzzy_match_menu_item ext (chars "1 unknown_item") menuFour = none)
    (h2 : fuzzy_match_menu_item ext (chars "unknown_item") menuFour = none) :
    extract_quantities_and_items_together ext
        (chars "2 chicken pizza and 1 unknown_item") menuFour =
      ([chars "Chicken Pizza"], [2], [chars "1 unknown_item"]) := by
  have hr : resolveClause ext menuFour (chars "1 unknown_item") = ([], 0) := by
    refine resolveClause_none ext menuFour (chars "1 unknown_item")
      (by decide) h1 ?_
    intro w hw hlen
    rw [c9_wordruns] at hw
    rcases List.mem_cons.mp hw with h | h
    · subst h
      exact absurd hlen (by decide)
    · rcases List.mem_cons.mp h with h | h
      · subst h
        exact h2
      · exact absurd h (List.not_mem_nil _)
  have hstrip : pyStrip (chars " 1 unknown_item") = chars "1 unknown_item" := by
    decide
  have hp1 : processPart ext menuFour ([], []) (chars "2 chicken pizza ") =
      ([(chars "Chicken Pizza", 2)], []) := rfl
  have hp2 : processPart ext menuFour ([(chars "Chicken Pizza", 2)], [])
      (chars " 1 unknown_item") =
      ([(chars "Chicken Pizza", 2)], [chars "1 unknown_item"]) := by
    have h0 := processPart_noMatch ext menuFour
      ([(chars "Chicken Pizza", 2)], []) (chars " 1 unknown_item")
      (by decide) (by rw [hstrip]; exact hr)
    rw [hstrip] at h0
    exact h0
  have hfold : (splitSeps (normalize_text
        (chars "2 chicken pizza and 1 unknown_item"))).foldl
        (processPart ext menuFour) ([], []) =
      ([(chars "Chicken Pizza", 2)], [chars "1 unknown_item"]) := by
    rw [c9_split_eval]
    simp only [List.foldl_cons, List.foldl_nil]
    rw [hp1, hp2]
  have key : ∀ st : List (Str × ℤ) × List Str,
      (splitSeps (normalize_text
        (chars "2 chicken pizza and 1 unknown_item"))).foldl
        (processPart ext menuFour) ([], []) = st →
      extract_quantities_and_items_together ext
          (chars "2 chicken pizza and 1 unknown_item") menuFour =
        ((finalPass menuFour (normalize_text
            (chars "2 chicken pizza and 1 unknown_item")) st.1).map
              (fun p => p.1),
         ((finalPass menuFour (normalize_text
            (chars "2 chicken pizza and 1 unknown_item")) st.1).map
              (fun p => p.1)).map
           (fun it => (alookup (finalPass menuFour (normalize_text
              (chars "2 chicken pizza and 1 unknown_item")) st.1) it).getD 0),
         st.2) := by
    intro st hst
    rw [← hst]
    rfl
  exact (key ([(chars "Chicken Pizza", 2)], [chars "1 unknown_item"])
    hfold).trans (by decide)

end RNLP

namespace RNLP

/-- Claim C9: parsing `"2 chicken pizza and 1 unknown_item"` against the
four-item sample menu — under the (rapidfuzz-modelling) hypotheses that both
similarity scorers stay below the 70-point floor on the unresolvable
fragments — yields intent `order_food`, the resolved item `Chicken Pizza`
with quantity 2, the raw fragment `1 unknown_item` in `unclear_items`, and
no clarification state: partial success is preserved. -/
theorem claim9_keeps_resolved_items (ext : Ext)
    (hA1 : ∀ m ∈ menuFour,
      ext.scorerA (normalize_text (chars "1 unknown_item")) (toLowerStr m) < 70)
    (hB1 : ∀ m ∈ menuFour,
      ext.scorerB (normalize_text (chars "1 unknown_item")) (toLowerStr m) < 70)
    (hA2 : ∀ m ∈ menuFour,
      ext.scorerA (normalize_text (chars "unknown_item")) (toLowerStr m) < 70)
    (hB2 : ∀ m ∈ menuFour,
      ext.scorerB (normalize_text (chars "unknown_item")) (toLowerStr m) < 70) :
    (parse_order ext (chars "2 chicken pizza and 1 unknown_item")
        menuFour).intent = "order_food" ∧
    (parse_order ext (chars "2 chicken pizza and 1 unknown_item")
        menuFour).items = [chars "Chicken Pizza"] ∧
    (parse_order ext (chars "2 chicken pizza and 1 unknown_item")
        menuFour).quantities = [2] ∧
    (parse_order ext (chars "2 chicken pizza and 1 unknown_item")
        menuFour).unclear_items = [chars "1 unknown_item"] ∧
    (parse_order ext (chars "2 chicken pizza and 1 unknown_item")
        menuFour).needs_clarification = false := by
  have h1 : fuzzy_match_menu_item ext (chars "1 unknown_item") menuFour = none :=
    fuzzy_match_low ext _ menuFour (by decide) hA1 hB1
  have h2 : fuzzy_match_menu_item ext (chars "unknown_item") menuFour = none :=
    fuzzy_match_low ext _ menuFour (by decide) hA2 hB2
  have hx := c9_extract ext h1 h2
  have key : ∀ r : List Str × List ℤ × List Str,
      extract_quantities_and_items_together ext
        (chars "2 chicken pizza and 1 unknown_item") menuFour = r →
      parse_order ext (chars "2 chicken pizza and 1 unknown_item") menuFour =
        if r.1.isEmpty && !r.2.2.isEmpty then
          { intent := "order_food", items := r.1, quantities := r.2.1,
            confidence := calculate_confidence
              (chars "2 chicken pizza and 1 unknown_item") "order_food"
              r.1 r.2.1,
            needs_clarification := true,
            clarification_type := some (chars "unclear_items"),
            available_options := r.2.2, unclear_items := r.2.2 }
        else
          { intent := "order_food", items := r.1, quantities := r.2.1,
            confidence := calculate_confidence
              (chars "2 chicken pizza and 1 unknown_item") "order_food"
              r.1 r.2.1,
            needs_clarification := false, clarification_type := none,
            available_options := [], unclear_items := r.2.2 } := by
    intro r hr
    rw [← hr]
    rfl
  have hres := key ([chars "Chicken Pizza"], [2], [chars "1 unknown_item"]) hx
  rw [if_neg (by decide)] at hres
  rw [hres]
  exact ⟨rfl, rfl, rfl, rfl, rfl⟩

/-- Witness for C9 with the degenerate zero-scoring oracles. -/
theorem claim9_witness :
    (parse_order extZero (chars "2 chicken pizza and 1 unknown_item")
        menuFour).intent = "order_food" ∧
    (parse_order extZero (chars "2 chicken pizza and 1 unknown_item")
        menuFour).items = [chars "Chicken Pizza"] ∧
    (parse_order extZero (chars "2 chicken pizza and 1 unknown_item")
        menuFour).quantities = [2] ∧
    (parse_order extZero (chars "2 chicken pizza and 1 unknown_item")
        menuFour).unclear_items = [chars "1 unknown_item"] ∧
    (parse_order extZero (chars "2 chicken pizza and 1 unknown_item")
        menuFour).needs_clarification = false :=
  claim9_keeps_resolved_items extZero (by decide) (by decide) (by decide) (by decide)

end RNLP
